import Mathlib

/-!
Verification of the admission-control and structural-validation layer of the
discord-MCP HTTP gateway.  The TypeScript sources are embedded shallowly:
pure functions become Lean functions, the stateful rate limiter becomes
explicit state passing over an association-list model of the JS `Map`, and
JS numbers holding millisecond timestamps become `Int`.  External library
primitives (Node `crypto`, discord.js interaction replies) that the
repository merely calls are modelled from their documented contracts and
marked as such in their doc comments.
-/

namespace DiscordMCP

/-! ## Components-V2 aggregate limits (`validateComponentsV2`)

Embeds `COMPONENTS_V2_LIMITS`, `ComponentsV2Stats` and `validateComponentsV2`
from the repository's components-v2 limits module.  The TypeScript function
throws `Error('Too many components')`, `Error('Too many TextDisplay
characters')` or `Error('Too many MediaGallery items')`; throwing is embedded
as `Except.error` carrying the exact message string, and returning normally
as `Except.ok ()`.  The spec's error names map as: `TooManyNodes` ↦
"Too many components", `TextBudgetExceeded` ↦ "Too many TextDisplay
characters", `GalleryBudgetExceeded` ↦ "Too many MediaGallery items". -/

def MAX_COMPONENTS_PER_MESSAGE : Nat := 40

def MAX_TEXT_DISPLAY_CHARS : Nat := 4000

def MAX_MEDIA_GALLERY_ITEMS : Nat := 10

structure ComponentsV2Stats where
  componentCount : Nat
  textDisplayChars : Nat
  mediaGalleryItems : Nat
  deriving Repr, DecidableEq

def validateComponentsV2 (stats : ComponentsV2Stats) : Except String Unit :=
  if stats.componentCount > MAX_COMPONENTS_PER_MESSAGE then
    .error "Too many components"
  else if stats.textDisplayChars > MAX_TEXT_DISPLAY_CHARS then
    .error "Too many TextDisplay characters"
  else if stats.mediaGalleryItems > MAX_MEDIA_GALLERY_ITEMS then
    .error "Too many MediaGallery items"
  else
    .ok ()

/-! ## Sliding-window rate limiter (`RateLimiter` in the security utils)

The TS class keeps `requests : Map<string, number[]>` plus the constructor
parameters `windowMs` and `maxRequests`.  The `Map` is embedded as an
association list with JS `Map.get` / `Map.set` semantics, and each method
takes the state and the current clock reading (`Date.now()`) explicitly. -/

structure RateLimiterConfig where
  windowMs : Int
  maxRequests : Nat
  deriving Repr, DecidableEq

abbrev RequestsMap : Type := List (String × List Int)

/-- JS `Map.get(k)` followed by `|| []`: the stored timestamp list, or `[]`
when the key is absent. -/
def mapGet : RequestsMap → String → List Int
  | [], _ => []
  | p :: rest, k => if p.1 = k then p.2 else mapGet rest k

/-- JS `Map.set(k, v)`: replace the binding when the key is present,
otherwise add it (keys are unique since only `mapSet` inserts). -/
def mapSet : RequestsMap → String → List Int → RequestsMap
  | [], k, v => [(k, v)]
  | p :: rest, k, v => if p.1 = k then (k, v) :: rest else p :: mapSet rest k v

/-- `RateLimiter.isAllowed(identifier)`: prune entries with
`now - time < windowMs` false, deny without writing when the pruned count
reaches `maxRequests`, otherwise store the pruned list with `now` pushed.
Returns the boolean result together with the updated `requests` map. -/
def isAllowed (cfg : RateLimiterConfig) (requests : RequestsMap)
    (identifier : String) (now : Int) : Bool × RequestsMap :=
  let userRequests := mapGet requests identifier
  let validRequests := userRequests.filter (fun time => now - time < cfg.windowMs)
  if cfg.maxRequests ≤ validRequests.length then
    (false, requests)
  else
    (true, mapSet requests identifier (validRequests ++ [now]))

/-- `RateLimiter.getRemainingRequests(identifier)`: `Math.max(0, max - count)`
over the pruned list (truncated subtraction on `Nat` gives the `Math.max`). -/
def getRemainingRequests (cfg : RateLimiterConfig) (requests : RequestsMap)
    (identifier : String) (now : Int) : Nat :=
  let userRequests := mapGet requests identifier
  let validRequests := userRequests.filter (fun time => now - time < cfg.windowMs)
  cfg.maxRequests - validRequests.length

/-- Admission checks for one identity at a list of successive clock
readings, threading the map through `isAllowed`. -/
def runCalls (cfg : RateLimiterConfig) (requests : RequestsMap)
    (identifier : String) : List Int → List Bool × RequestsMap
  | [] => ([], requests)
  | now :: rest =>
    let step := isAllowed cfg requests identifier now
    let tail := runCalls cfg step.2 identifier rest
    (step.1 :: tail.1, tail.2)

/-- A whole script of admission checks, possibly over many identities;
used to describe the states the limiter can actually reach. -/
def runScript (cfg : RateLimiterConfig) (requests : RequestsMap) :
    List (String × Int) → RequestsMap
  | [] => requests
  | call :: rest => runScript cfg (isAllowed cfg requests call.1 call.2).2 rest

/-- Refinement reference for the limiter, following the claim wording
verbatim: on each call the limiter **drops the timestamps older than
`now - window`** (strictly older, so a timestamp exactly at `now - window`
is kept) and then decides exactly as the implementation does.  Only the
pruning predicate differs from `isAllowed`. -/
def claimIsAllowed (cfg : RateLimiterConfig) (requests : RequestsMap)
    (identifier : String) (now : Int) : Bool × RequestsMap :=
  let userRequests := mapGet requests identifier
  let validRequests := userRequests.filter (fun time => now - cfg.windowMs ≤ time)
  if cfg.maxRequests ≤ validRequests.length then
    (false, requests)
  else
    (true, mapSet requests identifier (validRequests ++ [now]))

/-! ## Input sanitizer (`sanitizeInput` in the security utils)

The TS function chains four global `String.replace` calls and a final
`trim()`.  Each `replace(/[c]/g, r)` is a character-wise rewrite, embedded
with `List.flatMap`; `trim()` drops leading and trailing whitespace. -/

/-- The double-quote character (`U+0022`), written by code point to keep the
embedding free of escaped quote literals. -/
def quoteChar : Char := Char.ofNat 34

/-- The apostrophe character (`U+0027`), written by code point. -/
def apostropheChar : Char := Char.ofNat 39

/-- The whitespace class trimmed by JS `String.prototype.trim`:
space, tab, line feed, carriage return, vertical tab, form feed,
no-break space and the BOM. -/
def isJsWhitespace (c : Char) : Bool :=
  c = ' ' || c = Char.ofNat 9 || c = Char.ofNat 10 || c = Char.ofNat 13 ||
  c = Char.ofNat 11 || c = Char.ofNat 12 || c = Char.ofNat 160 || c = Char.ofNat 65279

/-- JS `trim()` on a character list. -/
def trimChars (l : List Char) : List Char :=
  ((l.dropWhile isJsWhitespace).reverse.dropWhile isJsWhitespace).reverse

/-- `sanitizeInput`: delete `<` and `>`, escape `&` to `&amp;`, escape the
double quote to `&quot;`, escape the apostrophe to `&#x27;`, then trim. -/
def sanitizeInput (input : String) : String :=
  let s1 := input.data.flatMap (fun c => if c = '<' || c = '>' then [] else [c])
  let s2 := s1.flatMap (fun c => if c = '&' then "&amp;".data else [c])
  let s3 := s2.flatMap (fun c => if c = quoteChar then "&quot;".data else [c])
  let s4 := s3.flatMap (fun c => if c = apostropheChar then "&#x27;".data else [c])
  String.mk (trimChars s4)

/-! ## Security profile selection and startup validation
(`config/security.config.ts` and the startup check in `server.ts`)

`env.NODE_ENV` is constrained by the zod schema in
`config/environment.ts` to `development | production | test`, so the
`default` branch of `getSecurityLevel` is unreachable and the environment
tag is embedded as a three-valued type.  JS falsiness of an absent secret
(`!env.API_KEY`) is embedded as the empty string, and `.length` as
`String.length`. -/

inductive NodeEnv where
  | development
  | test
  | production
  deriving Repr, DecidableEq

inductive SecurityLevel where
  | low
  | medium
  | high
  | maximum
  deriving Repr, DecidableEq

def getSecurityLevel (nodeEnv : NodeEnv) : SecurityLevel :=
  match nodeEnv with
  | .development => .medium
  | .test => .low
  | .production => .maximum

structure SecurityProfileConfig where
  rateLimitWindow : Nat
  rateLimitMax : Nat
  requestSizeLimit : Nat
  tokenExpiration : Nat
  requireApiKey : Bool
  requireWebhookSignature : Bool
  logSensitiveData : Bool
  enableCORS : Bool
  allowedOrigins : List String
  deriving Repr, DecidableEq

/-- The static `securityConfig` table. -/
def securityConfig : SecurityLevel → SecurityProfileConfig
  | .low =>
    { rateLimitWindow := 60000, rateLimitMax := 1000, requestSizeLimit := 10485760,
      tokenExpiration := 1440, requireApiKey := false, requireWebhookSignature := false,
      logSensitiveData := true, enableCORS := true, allowedOrigins := ["*"] }
  | .medium =>
    { rateLimitWindow := 300000, rateLimitMax := 500, requestSizeLimit := 5242880,
      tokenExpiration := 720, requireApiKey := true, requireWebhookSignature := true,
      logSensitiveData := false, enableCORS := true,
      allowedOrigins := ["http://localhost:3000", "http://localhost:8080"] }
  | .high =>
    { rateLimitWindow := 900000, rateLimitMax := 100, requestSizeLimit := 2097152,
      tokenExpiration := 360, requireApiKey := true, requireWebhookSignature := true,
      logSensitiveData := false, enableCORS := true,
      allowedOrigins := ["https://yourdomain.com"] }
  | .maximum =>
    { rateLimitWindow := 1800000, rateLimitMax := 50, requestSizeLimit := 1048576,
      tokenExpiration := 180, requireApiKey := true, requireWebhookSignature := true,
      logSensitiveData := false, enableCORS := false, allowedOrigins := [] }

def getSecurityConfig (nodeEnv : NodeEnv) : SecurityProfileConfig :=
  securityConfig (getSecurityLevel nodeEnv)

/-- The slice of `env` read by `validateSecurityRequirements`; an absent
variable is the empty string (JS falsy). -/
structure Env where
  NODE_ENV : NodeEnv
  API_KEY : String
  WEBHOOK_SECRET : String
  ENCRYPTION_KEY : String
  DISCORD_TOKEN : String
  HOST : String
  LOG_LEVEL : String
  deriving Repr, DecidableEq

/-- `validateSecurityRequirements()`: every `errors.push(...)` appends one
string under a condition that does not depend on the accumulator, so the
accumulated list is the source-order concatenation of conditional
singletons; `valid` is `errors.length === 0`. -/
def validateSecurityRequirements (env : Env) : Bool × List String :=
  let config := getSecurityConfig env.NODE_ENV
  let errors : List String :=
    (if config.requireApiKey && (env.API_KEY = "" || env.API_KEY.length < 16) then
      ["API key is required and must be at least 16 characters"] else [])
    ++ (if config.requireWebhookSignature &&
          (env.WEBHOOK_SECRET = "" || env.WEBHOOK_SECRET.length < 32) then
      ["Webhook secret is required and must be at least 32 characters"] else [])
    ++ (if env.ENCRYPTION_KEY = "" || env.ENCRYPTION_KEY.length ≠ 32 then
      ["Encryption key is required and must be exactly 32 characters"] else [])
    ++ (if env.DISCORD_TOKEN = "" then ["Discord token is required"] else [])
    ++ (if env.NODE_ENV = .production then
          (if env.HOST = "0.0.0.0" then
            ["In production, avoid binding to 0.0.0.0 for security"] else [])
          ++ (if env.LOG_LEVEL = "debug" then
            ["Debug logging should be disabled in production"] else [])
          ++ (if config.allowedOrigins.length = 0 then
            ["CORS origins must be specified in production"] else [])
        else [])
  (errors.length = 0, errors)

/-- The startup gate in `server.ts`: `validateSecurityRequirements()` runs
before anything else and the process calls `process.exit(1)` unless it
reports `valid`, so initialization proceeds exactly when validation
succeeds. -/
def startupProceeds (env : Env) : Bool :=
  (validateSecurityRequirements env).1

/-! ## Comparison primitives and their cost

Timing claims are made observable by instrumenting each comparison with the
number of element comparisons it performs.  `timingSafeEqual` is an external
Node primitive and is modelled from its documented contract; the strict
string equality used by `validateApiKey` is the language builtin, modelled
by its specified algorithm (length check, then left-to-right scan that stops
at the first mismatch). -/

/-- Modelled from the spec: Node `crypto.timingSafeEqual(a, b)` — throws on
buffers of different length, otherwise compares every byte regardless of
content and returns whether all bytes matched.  The second component is the
number of byte comparisons performed, always the full buffer length. -/
def timingSafeEqual (a b : List Nat) : Except String (Bool × Nat) :=
  if a.length ≠ b.length then
    .error "Input buffers must have the same byte length"
  else
    .ok (a = b, a.length)

/-- Cost-instrumented model of JS strict string equality (`===` / `!==`):
equal references or lengths are checked first, then characters are compared
left to right, stopping at the first mismatch.  The second component counts
the character comparisons performed. -/
def jsStrEqChars : List Char → List Char → Bool × Nat
  | [], [] => (true, 0)
  | [], _ :: _ => (false, 0)
  | _ :: _, [] => (false, 0)
  | a :: as, b :: bs =>
    if a = b then
      let rest := jsStrEqChars as bs
      (rest.1, rest.2 + 1)
    else
      (false, 1)

def jsStrEq (a b : String) : Bool × Nat :=
  if a.length ≠ b.length then (false, 0) else jsStrEqChars a.data b.data

/-! ## API-key middleware (`validateApiKey` in `middleware/security.ts`)

`req.get('X-API-Key')` is the optional header value; `!apiKey` is true for a
missing header and for the empty string.  The mismatch test is the JS `!==`
on strings, so the middleware inherits its cost. -/

inductive ApiKeyResult where
  | missingKey
  | invalidKey
  | ok
  deriving Repr, DecidableEq

/-- `validateApiKey`: 401 "API key required" without a key, 401 "Invalid API
key" when `apiKey !== env.API_KEY`, otherwise pass through.  The second
component is the number of character comparisons the key check performed. -/
def validateApiKey (headerKey : Option String) (configKey : String) :
    ApiKeyResult × Nat :=
  match headerKey with
  | none => (.missingKey, 0)
  | some apiKey =>
    if apiKey = "" then (.missingKey, 0)
    else
      let cmp := jsStrEq apiKey configKey
      if cmp.1 then (.ok, cmp.2) else (.invalidKey, cmp.2)

/-! ## HMAC-SHA256 webhook signatures (`verifyWebhookSignature`)

The repository computes `crypto.createHmac('sha256', secret).update(payload)
.digest('hex')` and compares it to the caller-supplied hex signature with
`crypto.timingSafeEqual` over `Buffer.from(·, 'hex')`, returning `false`
from the surrounding `try/catch` when the buffers differ in length.  The
Node primitives are modelled from their specifications: SHA-256 follows
FIPS 180-4 and HMAC follows FIPS 198-1, over bytes as `Nat` values reduced
mod 2^32 at each word operation; `Buffer.from(s, 'hex')` parses hex digit
pairs and truncates at the first invalid pair. -/

/-- 32-bit word truncation. -/
def w32 (n : Nat) : Nat := n % 4294967296

/-- Right rotation of a 32-bit word. -/
def rotr (n x : Nat) : Nat := w32 ((x >>> n) ||| (x <<< (32 - n)))

def sha256InitH : List Nat :=
  [1779033703, 3144134277, 1013904242, 2773480762,
   1359893119, 2600822924, 528734635, 1541459225]

def sha256K : List Nat :=
  [1116352408, 1899447441, 3049323471, 3921009573, 961987163,
   1508970993, 2453635748, 2870763221, 3624381080, 310598401,
   607225278, 1426881987, 1925078388, 2162078206, 2614888103,
   3248222580, 3835390401, 4022224774, 264347078, 604807628,
   770255983, 1249150122, 1555081692, 1996064986, 2554220882,
   2821834349, 2952996808, 3210313671, 3336571891, 3584528711,
   113926993, 338241895, 666307205, 773529912, 1294757372,
   1396182291, 1695183700, 1986661051, 2177026350, 2456956037,
   2730485921, 2820302411, 3259730800, 3345764771, 3516065817,
   3600352804, 4094571909, 275423344, 430227734, 506948616,
   659060556, 883997877, 958139571, 1322822218, 1537002063,
   1747873779, 1955562222, 2024104815, 2227730452, 2361852424,
   2428436474, 2756734187, 3204031479, 3329325298]

/-- Big-endian byte expansion of a number into `k` bytes. -/
def toBytesBE : Nat → Nat → List Nat
  | 0, _ => []
  | k + 1, n => toBytesBE k (n / 256) ++ [n % 256]

/-- SHA-256 padding: append `0x80`, zero bytes up to 56 mod 64, then the
bit length in 8 big-endian bytes. -/
def padMessage (msg : List Nat) : List Nat :=
  let z := (119 - msg.length % 64) % 64
  msg ++ [0x80] ++ List.replicate z 0 ++ toBytesBE 8 (8 * msg.length)

/-- Big-endian 32-bit words from a byte list (complete groups of four). -/
def toWordsBE : List Nat → List Nat
  | b0 :: b1 :: b2 :: b3 :: rest =>
    (((b0 * 256 + b1) * 256 + b2) * 256 + b3) :: toWordsBE rest
  | _ => []

def smallSigma0 (x : Nat) : Nat := (rotr 7 x) ^^^ (rotr 18 x) ^^^ (x >>> 3)

def smallSigma1 (x : Nat) : Nat := (rotr 17 x) ^^^ (rotr 19 x) ^^^ (x >>> 10)

def bigSigma0 (x : Nat) : Nat := (rotr 2 x) ^^^ (rotr 13 x) ^^^ (rotr 22 x)

def bigSigma1 (x : Nat) : Nat := (rotr 6 x) ^^^ (rotr 11 x) ^^^ (rotr 25 x)

/-- Extends the 16-word block to the 64-word message schedule. -/
def extendSchedule : List Nat → Nat → List Nat
  | w, 0 => w
  | w, k + 1 =>
    let next := w32 (smallSigma1 (w.getD (w.length - 2) 0) + w.getD (w.length - 7) 0 +
      smallSigma0 (w.getD (w.length - 15) 0) + w.getD (w.length - 16) 0)
    extendSchedule (w ++ [next]) k

/-- One SHA-256 round on the eight-word working state. -/
def sha256Round (st : List Nat) (wk : Nat × Nat) : List Nat :=
  match st with
  | [a, b, c, d, e, f, g, h] =>
    let ch := (e &&& f) ^^^ ((e ^^^ 0xffffffff) &&& g)
    let maj := (a &&& b) ^^^ (a &&& c) ^^^ (b &&& c)
    let temp1 := w32 (h + bigSigma1 e + ch + wk.2 + wk.1)
    let temp2 := w32 (bigSigma0 a + maj)
    [w32 (temp1 + temp2), a, b, c, w32 (d + temp1), e, f, g]
  | other => other

/-- Compression of one 512-bit block into the running hash value. -/
def processBlock (h : List Nat) (block : List Nat) : List Nat :=
  let w := extendSchedule block 48
  let st := (w.zip sha256K).foldl sha256Round h
  (h.zip st).map (fun p => w32 (p.1 + p.2))

/-- Splits the padded byte stream into 64-byte blocks. -/
def chunkBlocks (l : List Nat) : List (List Nat) :=
  if h : l = [] then []
  else
    have : (l.drop 64).length < l.length := by
      cases l with
      | nil => exact absurd rfl h
      | cons a t => simp [List.length_drop]; omega
    l.take 64 :: chunkBlocks (l.drop 64)
termination_by l.length

/-- Modelled from the spec: SHA-256 (FIPS 180-4) over a byte list. -/
def sha256 (msg : List Nat) : List Nat :=
  let padded := padMessage msg
  let final := (chunkBlocks padded).foldl (fun h b => processBlock h (toWordsBE b)) sha256InitH
  final.flatMap (toBytesBE 4)

/-- Modelled from the spec: HMAC-SHA256 (FIPS 198-1) with the 64-byte
SHA-256 block size. -/
def hmacSha256 (key msg : List Nat) : List Nat :=
  let key0 := if 64 < key.length then sha256 key else key
  let keyPad := key0 ++ List.replicate (64 - key0.length) 0
  let ipad := keyPad.map (fun b => b ^^^ 0x36)
  let opad := keyPad.map (fun b => b ^^^ 0x5c)
  sha256 (opad ++ sha256 (ipad ++ msg))

/-- UTF-8 bytes of a string, as `crypto`'s `update(payload)` reads it. -/
def strBytes (s : String) : List Nat :=
  s.toUTF8.toList.map (fun b => b.toNat)

def hexDigitChar (n : Nat) : Char :=
  if n < 10 then Char.ofNat (48 + n) else Char.ofNat (87 + n)

/-- Lowercase hex encoding, as `digest('hex')` produces. -/
def hexEncode (bs : List Nat) : List Char :=
  bs.flatMap (fun b => [hexDigitChar (b / 16), hexDigitChar (b % 16)])

def hexVal? (c : Char) : Option Nat :=
  if 48 ≤ c.toNat ∧ c.toNat ≤ 57 then some (c.toNat - 48)
  else if 97 ≤ c.toNat ∧ c.toNat ≤ 102 then some (c.toNat - 87)
  else if 65 ≤ c.toNat ∧ c.toNat ≤ 70 then some (c.toNat - 55)
  else none

/-- Modelled from the spec: `Buffer.from(s, 'hex')` — consumes hex digit
pairs and stops at the first incomplete or invalid pair. -/
def hexDecode : List Char → List Nat
  | c1 :: c2 :: rest =>
    match hexVal? c1, hexVal? c2 with
    | some hi, some lo => (16 * hi + lo) :: hexDecode rest
    | _, _ => []
  | _ => []

/-- The signing side of the round-trip: the hex HMAC-SHA256 digest of the
payload under the secret, exactly the `expectedSignature` computed inside
`verifyWebhookSignature`. -/
def signPayload (payload secret : String) : String :=
  String.mk (hexEncode (hmacSha256 (strBytes secret) (strBytes payload)))

/-- The comparison step of `verifyWebhookSignature`: `timingSafeEqual` over
the hex-decoded buffers, with the `try/catch` turning a length-mismatch
throw into `false`.  The second component is the number of byte comparisons
performed. -/
def verifySignatureCompare (signature expected : String) : Bool × Nat :=
  match timingSafeEqual (hexDecode signature.data) (hexDecode expected.data) with
  | .ok r => r
  | .error _ => (false, 0)

/-- `verifyWebhookSignature(payload, signature, secret)`. -/
def verifyWebhookSignature (payload signature secret : String) : Bool :=
  (verifySignatureCompare signature (signPayload payload secret)).1

/-! ## Component builder (`DiscordService.buildContainer` and friends)

Input node descriptors arrive as untyped JSON; they are embedded as a
recursive node carrying the `type` tag, the scalar fields the builders
read (a JS-absent string field is the empty string, so `if (x)` becomes
`x ≠ ""`; an absent numeric field is `0`, so `x || 1` becomes
`if x = 0 then 1 else x`), plus any nested accessory and child descriptors.
`buildContainer` walks `children` with `forEach`, appending a built button
for a `'button'` child, a built select menu for a `'select'` child, and
doing nothing at all for every other child. -/

structure SelectOptionData where
  label : String := ""
  value : String := ""
  description : String := ""
  emoji : String := ""
  isDefault : Bool := false
  deriving Repr, DecidableEq

structure NodeFields where
  label : String := ""
  style : String := ""
  customId : String := ""
  url : String := ""
  emoji : String := ""
  placeholder : String := ""
  content : String := ""
  disabled : Bool := false
  minValues : Nat := 0
  maxValues : Nat := 0
  options : List SelectOptionData := []
  deriving Repr, DecidableEq

/-- A caller-supplied component descriptor: its `type` string, the scalar
fields, its accessory descriptors, and its child descriptors. -/
inductive InputNode where
  | mk : String → NodeFields → List InputNode → List InputNode → InputNode

def InputNode.type : InputNode → String
  | .mk t _ _ _ => t

def InputNode.fields : InputNode → NodeFields
  | .mk _ f _ _ => f

def InputNode.accessories : InputNode → List InputNode
  | .mk _ _ a _ => a

def InputNode.children : InputNode → List InputNode
  | .mk _ _ _ c => c

inductive ButtonStyleTag where
  | primary
  | secondary
  | success
  | danger
  | link
  deriving Repr, DecidableEq

structure ButtonModel where
  label : String
  style : ButtonStyleTag
  customId : String
  url : String
  emoji : String
  disabled : Bool
  deriving Repr, DecidableEq

/-- `buildButton`: label and disabled always set, style mapped from the
style string with `Primary` as the default, and customId / url / emoji set
only when truthy. -/
def buildButton (buttonData : InputNode) : ButtonModel :=
  let style : ButtonStyleTag :=
    if buttonData.fields.style = "secondary" then .secondary
    else if buttonData.fields.style = "success" then .success
    else if buttonData.fields.style = "danger" then .danger
    else if buttonData.fields.style = "link" then .link
    else .primary
  { label := buttonData.fields.label
    style := style
    customId := buttonData.fields.customId
    url := buttonData.fields.url
    emoji := buttonData.fields.emoji
    disabled := buttonData.fields.disabled }

structure SelectModel where
  customId : String
  placeholder : String
  minValues : Nat
  maxValues : Nat
  disabled : Bool
  options : List SelectOptionData
  deriving Repr, DecidableEq

/-- `buildSelectMenu`: placeholder defaults to `'Select an option...'` and
min/max values default to 1 through JS `||`. -/
def buildSelectMenu (selectData : InputNode) : SelectModel :=
  { customId := selectData.fields.customId
    placeholder :=
      if selectData.fields.placeholder = "" then "Select an option..."
      else selectData.fields.placeholder
    minValues := if selectData.fields.minValues = 0 then 1 else selectData.fields.minValues
    maxValues := if selectData.fields.maxValues = 0 then 1 else selectData.fields.maxValues
    disabled := selectData.fields.disabled
    options := selectData.fields.options }

inductive RowComponent where
  | button : ButtonModel → RowComponent
  | select : SelectModel → RowComponent
  deriving Repr, DecidableEq

structure ActionRowModel where
  components : List RowComponent
  deriving Repr, DecidableEq

/-- `DiscordService.buildContainer`: a fresh `ActionRowBuilder`, then for
each child a button or select menu is appended when the `type` tag matches,
and any other child is passed over. -/
def buildContainer (containerData : InputNode) : ActionRowModel :=
  { components :=
      containerData.children.foldl (fun row child =>
        if child.type = "button" then
          row ++ [RowComponent.button (buildButton child)]
        else if child.type = "select" then
          row ++ [RowComponent.select (buildSelectMenu child)]
        else
          row) [] }

/-! ## Interaction acknowledgement (`setupEventHandlers` /
`handleButtonInteraction`)

A discord.js interaction carries `replied` and `deferred` flags; `reply`
acknowledges it exactly once and throws if it was already acknowledged.
The repository's button handler guards every `reply` behind
`!interaction.replied && !interaction.deferred`.  The handler returns the
updated interaction together with the number of acknowledgements it sent
to the platform. -/

structure InteractionState where
  replied : Bool
  deferred : Bool
  deriving Repr, DecidableEq

/-- A freshly arrived interaction: not yet acknowledged. -/
def InteractionState.pending : InteractionState :=
  { replied := false, deferred := false }

inductive AckError where
  | alreadyAcknowledged
  deriving Repr, DecidableEq

/-- Modelled from the spec: discord.js `interaction.reply` — sends one
acknowledgement and marks the interaction replied, or throws when the
interaction was already acknowledged (the platform accepts a single
acknowledgement per interaction). -/
def interactionReply (st : InteractionState) :
    Except AckError (InteractionState × Nat) :=
  if st.replied || st.deferred then
    .error .alreadyAcknowledged
  else
    .ok ({ st with replied := true }, 1)

/-- `DiscordService.handleButtonInteraction`: reply only when the
interaction is neither replied nor deferred; otherwise do nothing.  The
result carries the interaction state and the number of acknowledgements
sent by this call. -/
def handleButtonInteraction (st : InteractionState) :
    Except AckError (InteractionState × Nat) :=
  if !st.replied && !st.deferred then
    interactionReply st
  else
    .ok (st, 0)

/-- Repeated deliveries of the same interaction to the button handler,
accumulating the total number of acknowledgements sent. -/
def handleButtonTimes (st : InteractionState) : Nat → Except AckError (InteractionState × Nat)
  | 0 => .ok (st, 0)
  | n + 1 =>
    match handleButtonInteraction st with
    | .error e => .error e
    | .ok first =>
      match handleButtonTimes first.1 n with
      | .error e => .error e
      | .ok rest => .ok (rest.1, first.2 + rest.2)

/-! ## Theorems -/

/-- C1: `validateComponentsV2` accepts a statistics triple exactly when the
node count is at most 40, the TextDisplay character total is at most 4000
and the gallery item total is at most 10; 41 nodes are rejected with the
"Too many components" error (the spec's `TooManyNodes`), and 4001 TextDisplay
characters under an admissible node count are rejected with the
"Too many TextDisplay characters" error (the spec's `TextBudgetExceeded`). -/
theorem validateComponentsV2_limits (stats : ComponentsV2Stats) :
    (validateComponentsV2 stats = .ok () ↔
      stats.componentCount ≤ 40 ∧ stats.textDisplayChars ≤ 4000 ∧
        stats.mediaGalleryItems ≤ 10)
    ∧ (stats.componentCount = 41 →
        validateComponentsV2 stats = .error "Too many components")
    ∧ (stats.componentCount ≤ 40 → stats.textDisplayChars = 4001 →
        validateComponentsV2 stats = .error "Too many TextDisplay characters") := by
  unfold validateComponentsV2 MAX_COMPONENTS_PER_MESSAGE MAX_TEXT_DISPLAY_CHARS
    MAX_MEDIA_GALLERY_ITEMS
  refine ⟨?_, ?_, ?_⟩ <;> split_ifs <;> simp_all <;> omega

/-- C1 witness: the three boundary instances from the claim, settled by the
theorem at concrete statistics. -/
theorem validateComponentsV2_limits_witness :
    validateComponentsV2 ⟨40, 4000, 10⟩ = .ok ()
    ∧ validateComponentsV2 ⟨41, 0, 0⟩ = .error "Too many components"
    ∧ validateComponentsV2 ⟨10, 4001, 0⟩ = .error "Too many TextDisplay characters" :=
  ⟨(validateComponentsV2_limits ⟨40, 4000, 10⟩).1.mpr (by norm_num),
   (validateComponentsV2_limits ⟨41, 0, 0⟩).2.1 rfl,
   (validateComponentsV2_limits ⟨10, 4001, 0⟩).2.2 (by norm_num) rfl⟩

/-! ### Sanitizer lemmas -/

theorem mem_replaceAngle {c : Char} {l : List Char}
    (h : c ∈ l.flatMap (fun x => if x = '<' || x = '>' then [] else [x])) :
    c ∈ l ∧ c ≠ '<' ∧ c ≠ '>' := by
  rw [List.mem_flatMap] at h
  obtain ⟨a, ha, hc⟩ := h
  by_cases h1 : a = '<' <;> by_cases h2 : a = '>' <;> simp_all

theorem mem_replaceChar {t : Char} {r : List Char} {c : Char} {l : List Char}
    (h : c ∈ l.flatMap (fun x => if x = t then r else [x])) :
    c ∈ r ∨ (c ∈ l ∧ c ≠ t) := by
  rw [List.mem_flatMap] at h
  obtain ⟨a, ha, hc⟩ := h
  by_cases h1 : a = t <;> simp_all

theorem mem_trimChars {c : Char} {l : List Char} (h : c ∈ trimChars l) : c ∈ l := by
  unfold trimChars at h
  rw [List.mem_reverse] at h
  have h1 := (List.dropWhile_sublist (l := (l.dropWhile isJsWhitespace).reverse)
    isJsWhitespace).mem h
  rw [List.mem_reverse] at h1
  exact (List.dropWhile_sublist isJsWhitespace).mem h1

theorem head?_dropWhile_false {p : Char → Bool} :
    ∀ {l : List Char} {c : Char}, (l.dropWhile p).head? = some c → p c = false := by
  intro l
  induction l with
  | nil => intro c h; simp [List.dropWhile] at h
  | cons a t ih =>
    intro c h
    rw [List.dropWhile_cons] at h
    by_cases ha : p a = true
    · rw [if_pos ha] at h
      exact ih h
    · rw [if_neg ha] at h
      simp only [List.head?_cons, Option.some.injEq] at h
      rw [← h]
      exact Bool.eq_false_iff.mpr ha

theorem trimChars_head {l : List Char} {c : Char}
    (h : (trimChars l).head? = some c) : isJsWhitespace c = false := by
  unfold trimChars at h
  rw [List.head?_reverse] at h
  set m := (l.dropWhile isJsWhitespace).reverse with hm
  have hne : m.dropWhile isJsWhitespace ≠ [] := by
    intro hnil
    rw [hnil] at h
    simp at h
  have hsplit := List.takeWhile_append_dropWhile (p := isJsWhitespace) (l := m)
  have : (m.dropWhile isJsWhitespace).getLast? = m.getLast? := by
    conv_rhs => rw [← hsplit]
    rw [List.getLast?_append]
    cases hg : (m.dropWhile isJsWhitespace).getLast? with
    | none => exact absurd (List.getLast?_eq_none_iff.mp hg) hne
    | some x => simp
  rw [this, hm, List.getLast?_reverse] at h
  exact head?_dropWhile_false h

theorem trimChars_getLast {l : List Char} {c : Char}
    (h : (trimChars l).getLast? = some c) : isJsWhitespace c = false := by
  unfold trimChars at h
  rw [List.getLast?_reverse] at h
  exact head?_dropWhile_false h

/-- C10: the sanitizer's output never contains an angle bracket or a raw
double quote, and carries no leading or trailing whitespace. -/
theorem sanitizeInput_neutralizes (s : String) :
    '<' ∉ (sanitizeInput s).data ∧ '>' ∉ (sanitizeInput s).data ∧
    quoteChar ∉ (sanitizeInput s).data ∧
    (∀ c, (sanitizeInput s).data.head? = some c → isJsWhitespace c = false) ∧
    (∀ c, (sanitizeInput s).data.getLast? = some c → isJsWhitespace c = false) := by
  unfold sanitizeInput
  simp only [String.data]
  refine ⟨?_, ?_, ?_, fun c h => trimChars_head h, fun c h => trimChars_getLast h⟩
  · intro h
    have h4 := mem_trimChars h
    rcases mem_replaceChar h4 with h5 | ⟨h5, -⟩
    · simp [quoteChar, apostropheChar] at h5
    rcases mem_replaceChar h5 with h6 | ⟨h6, -⟩
    · simp [quoteChar] at h6
    rcases mem_replaceChar h6 with h7 | ⟨h7, -⟩
    · simp at h7
    exact absurd rfl (mem_replaceAngle h7).2.1
  · intro h
    have h4 := mem_trimChars h
    rcases mem_replaceChar h4 with h5 | ⟨h5, -⟩
    · simp [quoteChar, apostropheChar] at h5
    rcases mem_replaceChar h5 with h6 | ⟨h6, -⟩
    · simp [quoteChar] at h6
    rcases mem_replaceChar h6 with h7 | ⟨h7, -⟩
    · simp at h7
    exact absurd rfl (mem_replaceAngle h7).2.2
  · intro h
    have h4 := mem_trimChars h
    rcases mem_replaceChar h4 with h5 | ⟨h5, hne5⟩
    · simp [quoteChar, apostropheChar] at h5
    rcases mem_replaceChar h5 with h6 | ⟨h6, hne6⟩
    · simp [quoteChar] at h6
    · exact absurd rfl hne6

/-- C10 witness: the guarantees evaluated on a concrete hostile input. -/
theorem sanitizeInput_neutralizes_witness :
    '<' ∉ (sanitizeInput "  <b>a&b</b> ").data ∧
    quoteChar ∉ (sanitizeInput "  <b>a&b</b> ").data := by
  refine ⟨(sanitizeInput_neutralizes "  <b>a&b</b> ").1,
    (sanitizeInput_neutralizes "  <b>a&b</b> ").2.2.1⟩

/-! ### Startup security validation -/

/-- A production environment whose API key (16 chars), webhook secret
(32 chars) and encryption key (32 chars) all satisfy the length checks. -/
def prodEnvGoodSecrets : Env :=
  { NODE_ENV := .production
    API_KEY := "abcdefgh12345678"
    WEBHOOK_SECRET := "abcdefgh12345678abcdefgh12345678"
    ENCRYPTION_KEY := "abcdefgh12345678abcdefgh12345678"
    DISCORD_TOKEN := "token"
    HOST := "127.0.0.1"
    LOG_LEVEL := "info" }

/-- C7 counterexample: an environment in which every secret required by the
selected profile passes its length/format check, yet startup validation
fails (the production profile's CORS origin list is empty), so validation
failure is not characterized by the secret checks alone. -/
theorem validateSecurityRequirements_counterexample :
    (getSecurityConfig prodEnvGoodSecrets.NODE_ENV).requireApiKey = true
    ∧ 16 ≤ prodEnvGoodSecrets.API_KEY.length
    ∧ (getSecurityConfig prodEnvGoodSecrets.NODE_ENV).requireWebhookSignature = true
    ∧ 32 ≤ prodEnvGoodSecrets.WEBHOOK_SECRET.length
    ∧ prodEnvGoodSecrets.ENCRYPTION_KEY.length = 32
    ∧ prodEnvGoodSecrets.DISCORD_TOKEN ≠ ""
    ∧ (validateSecurityRequirements prodEnvGoodSecrets).1 = false
    ∧ startupProceeds prodEnvGoodSecrets = false := by
  decide

set_option maxHeartbeats 1600000 in
/-- C7 amended: startup validation succeeds exactly when the three secret
checks of the claim pass, the Discord token is present, and — in
production — the host is not `0.0.0.0`, the log level is not `debug`, and
the active profile's CORS origin list is nonempty; since the production
profile's origin list is the empty list, validation always fails in
production.  Initialization proceeds exactly when validation succeeds. -/
theorem validateSecurityRequirements_exact (env : Env) :
    ((validateSecurityRequirements env).1 = true ↔
      ¬((getSecurityConfig env.NODE_ENV).requireApiKey = true ∧
          (env.API_KEY = "" ∨ env.API_KEY.length < 16))
      ∧ ¬((getSecurityConfig env.NODE_ENV).requireWebhookSignature = true ∧
          (env.WEBHOOK_SECRET = "" ∨ env.WEBHOOK_SECRET.length < 32))
      ∧ ¬(env.ENCRYPTION_KEY = "" ∨ env.ENCRYPTION_KEY.length ≠ 32)
      ∧ env.DISCORD_TOKEN ≠ ""
      ∧ (env.NODE_ENV = .production →
          env.HOST ≠ "0.0.0.0" ∧ env.LOG_LEVEL ≠ "debug" ∧
          (getSecurityConfig env.NODE_ENV).allowedOrigins ≠ []))
    ∧ (env.NODE_ENV = .production → (validateSecurityRequirements env).1 = false)
    ∧ startupProceeds env = (validateSecurityRequirements env).1 := by
  refine ⟨?_, ?_, rfl⟩
  · obtain ⟨ne, ak, ws, ek, dt, ho, ll⟩ := env
    cases ne <;>
      simp only [validateSecurityRequirements, getSecurityConfig, getSecurityLevel,
        securityConfig, List.length_append, List.length_eq_zero] <;>
      split_ifs <;> simp_all
  · obtain ⟨ne, ak, ws, ek, dt, ho, ll⟩ := env
    cases ne <;> intro henv <;> simp_all only [] <;>
      simp only [validateSecurityRequirements, getSecurityConfig, getSecurityLevel,
        securityConfig, List.length_append] <;>
      split_ifs <;> simp_all

/-- C7 witness: the characterization applied to a concrete development
environment with valid secrets, which does start up. -/
theorem validateSecurityRequirements_exact_witness :
    (validateSecurityRequirements
      { NODE_ENV := .development
        API_KEY := "abcdefgh12345678"
        WEBHOOK_SECRET := "abcdefgh12345678abcdefgh12345678"
        ENCRYPTION_KEY := "abcdefgh12345678abcdefgh12345678"
        DISCORD_TOKEN := "token"
        HOST := "127.0.0.1"
        LOG_LEVEL := "info" }).1 = true :=
  (validateSecurityRequirements_exact _).1.mpr (by decide)

/-! ### Authentication comparison timing -/

/-- C4 counterexample: two wrong API keys of equal length whose rejection
by `validateApiKey` performs a different number of character comparisons —
the key check short-circuits at the first differing character, so it is not
a constant-time byte comparison. -/
theorem validateApiKey_not_constant_time :
    (validateApiKey (some "xb") "ab").1 = .invalidKey
    ∧ (validateApiKey (some "ax") "ab").1 = .invalidKey
    ∧ ("xb" : String).length = ("ax" : String).length
    ∧ (validateApiKey (some "xb") "ab").2 = 1
    ∧ (validateApiKey (some "ax") "ab").2 = 2 := by
  decide

/-- C4 amended: only the HMAC signature comparison is constant-time —
`timingSafeEqual` on equal-length buffers always performs one comparison
per byte, independent of content, and a decoded-length mismatch is caught
and treated as a mismatch without comparing bytes — while the API-key check
compares with JS `!==`, whose cost depends on where the keys first differ
(witnessed by two equal-length keys with different comparison counts). -/
theorem signature_compare_constant_time_apiKey_not :
    (∀ a b : List Nat, a.length = b.length →
      timingSafeEqual a b = .ok (decide (a = b), a.length))
    ∧ (∀ sig1 sig2 expected : String,
        (hexDecode sig1.data).length = (hexDecode expected.data).length →
        (hexDecode sig2.data).length = (hexDecode expected.data).length →
        (verifySignatureCompare sig1 expected).2 = (verifySignatureCompare sig2 expected).2)
    ∧ (∀ sig expected : String,
        (hexDecode sig.data).length ≠ (hexDecode expected.data).length →
        verifySignatureCompare sig expected = (false, 0))
    ∧ (validateApiKey (some "xb") "ab").2 ≠ (validateApiKey (some "ax") "ab").2 := by
  refine ⟨?_, ?_, ?_, by decide⟩
  · intro a b h
    simp [timingSafeEqual, h]
  · intro sig1 sig2 expected h1 h2
    simp [verifySignatureCompare, timingSafeEqual, h1, h2]
  · intro sig expected h
    simp [verifySignatureCompare, timingSafeEqual, h]

/-- C4 amended witness: the constant-time clause applied to two concrete
equal-length buffers that differ in their first byte, and the
length-mismatch clause applied to buffers of different decoded lengths. -/
theorem signature_compare_constant_time_witness :
    timingSafeEqual [0, 7] [9, 7] = .ok (false, 2)
    ∧ verifySignatureCompare "00" "0011" = (false, 0) := by
  constructor
  · have h := signature_compare_constant_time_apiKey_not.1 [0, 7] [9, 7] (by decide)
    simpa using h
  · exact signature_compare_constant_time_apiKey_not.2.2.1 "00" "0011" (by decide)

/-! ### Component builder -/

/-- The component appended for a child whose `type` tag is `button` or
`select`. -/
def buildRowChild (child : InputNode) : RowComponent :=
  if child.type = "button" then .button (buildButton child)
  else .select (buildSelectMenu child)

theorem buildContainer_foldl (l : List InputNode) (acc : List RowComponent) :
    l.foldl (fun row child =>
      if child.type = "button" then
        row ++ [RowComponent.button (buildButton child)]
      else if child.type = "select" then
        row ++ [RowComponent.select (buildSelectMenu child)]
      else
        row) acc
      = acc ++ (l.filter (fun ch => ch.type = "button" || ch.type = "select")).map
          buildRowChild := by
  induction l generalizing acc with
  | nil => simp
  | cons ch rest ih =>
    by_cases hb : ch.type = "button"
    · simp [List.foldl_cons, List.filter_cons, hb, ih, buildRowChild]
    · by_cases hs : ch.type = "select"
      · simp [List.foldl_cons, List.filter_cons, hb, hs, ih, buildRowChild]
      · simp [List.foldl_cons, List.filter_cons, hb, hs, ih]

/-- A Section descriptor without accessories. -/
def sectionZeroAcc : InputNode := .mk "section" {} [] []

/-- A Section descriptor with exactly one Button accessory. -/
def sectionOneButtonAcc : InputNode :=
  .mk "section" {} [.mk "button" { label := "Click" } [] []] []

/-- A Section descriptor with two accessories. -/
def sectionTwoAcc : InputNode :=
  .mk "section" {} [.mk "button" {} [] [], .mk "thumbnail" {} [] []] []

/-- C5 counterexample: `buildContainer` returns normally — the same empty
action row, with no `MissingAccessory` rejection and no error channel at
all — for a Section child with zero, exactly one Button, or two
accessories; in particular the zero- and two-accessory Sections are not
rejected, and the one-Button-accessory Section is dropped rather than
accepted into the row. -/
theorem buildContainer_section_counterexample :
    buildContainer (.mk "container" {} [] [sectionZeroAcc]) = ⟨[]⟩
    ∧ buildContainer (.mk "container" {} [] [sectionOneButtonAcc]) = ⟨[]⟩
    ∧ buildContainer (.mk "container" {} [] [sectionTwoAcc]) = ⟨[]⟩ :=
  ⟨rfl, rfl, rfl⟩

/-- C5 amended: the builder performs no Section or accessory validation —
it is a total function whose output contains exactly the children whose
`type` tag is `button` or `select`, each mapped by the corresponding
builder, so every Section child (whatever its accessory list) is silently
omitted and never rejected. -/
theorem buildContainer_only_button_select (c : InputNode) :
    (buildContainer c).components =
      (c.children.filter (fun ch => ch.type = "button" || ch.type = "select")).map
        buildRowChild
    ∧ (∀ ch ∈ c.children, ch.type = "section" →
        (buildContainer c).components.length < c.children.length) := by
  have hfold : (buildContainer c).components =
      (c.children.filter (fun ch => ch.type = "button" || ch.type = "select")).map
        buildRowChild := by
    unfold buildContainer
    exact buildContainer_foldl c.children []
  refine ⟨hfold, fun ch hmem hsec => ?_⟩
  rw [hfold, List.length_map]
  rw [List.length_filter_lt_length_iff_exists]
  exact ⟨ch, hmem, by simp [hsec]⟩

/-- C6 counterexample: a layout whose container holds a nested `container`
child — illegal under the claimed containment rules — is not rejected:
`buildContainer` accepts it and silently omits the child, returning the row
built from the remaining button. -/
theorem buildContainer_illegal_child_counterexample :
    buildContainer (.mk "container" {} []
        [.mk "container" {} [] [], .mk "button" { label := "Ok" } [] []])
      = ⟨[.button (buildButton (.mk "button" { label := "Ok" } [] []))]⟩ :=
  rfl

/-- C6 amended: the builder enforces no containment rule — a child whose
`type` tag is neither `button` nor `select` is silently omitted wherever it
occurs, leaving the built row identical to the one built without it, and no
`StructuralValidationError` is ever produced (the builder is total). -/
theorem buildContainer_silently_omits (t : String) (f : NodeFields)
    (a l1 l2 : List InputNode) (ch : InputNode)
    (h : ¬(ch.type = "button" ∨ ch.type = "select")) :
    buildContainer (.mk t f a (l1 ++ ch :: l2)) = buildContainer (.mk t f a (l1 ++ l2)) := by
  push_neg at h
  unfold buildContainer
  simp only [InputNode.children]
  rw [buildContainer_foldl, buildContainer_foldl]
  simp [List.filter_append, List.filter_cons, h.1, h.2]

/-- C6 amended witness: a nested container child omitted from between two
buttons. -/
theorem buildContainer_silently_omits_witness :
    buildContainer (.mk "container" {} []
        [.mk "button" {} [] [], .mk "container" {} [] [], .mk "button" {} [] []])
      = buildContainer (.mk "container" {} [] [.mk "button" {} [] [], .mk "button" {} [] []]) :=
  buildContainer_silently_omits "container" {} [] [.mk "button" {} [] []]
    [.mk "button" {} [] []] (.mk "container" {} [] []) (by simp [InputNode.type])

/-- C5 amended witness: the characterization applied to a container holding
one section and one button. -/
theorem buildContainer_only_button_select_witness :
    (buildContainer (.mk "container" {} []
        [.mk "section" {} [] [], .mk "button" {} [] []])).components.length < 2 := by
  have h := (buildContainer_only_button_select
      (.mk "container" {} [] [.mk "section" {} [] [], .mk "button" {} [] []])).2
      (.mk "section" {} [] []) (List.mem_cons_self _ _) rfl
  simpa using h

/-! ### Interaction acknowledgement -/

/-- C8 counterexample: delivering the same pending interaction to the
button handler twice acknowledges once and then returns normally — the
second call is silently skipped by the `replied`/`deferred` guard, sends
nothing, and produces no `DoubleAcknowledgement`-style error. -/
theorem handleButton_twice_no_error :
    handleButtonTimes InteractionState.pending 2
      = .ok ({ replied := true, deferred := false }, 1) :=
  rfl

/-- C8 amended: the interaction state goes Pending → Acknowledged exactly
once — the first handler call replies and marks the interaction; every
later call is skipped by the guard, sends no further acknowledgement, and
returns without error (so the platform's double-acknowledgement error is
never triggered), and `n` deliveries of a pending interaction always
acknowledge exactly once in total. -/
theorem handleButton_acknowledges_once (st : InteractionState) (n : Nat) (hn : 0 < n) :
    handleButtonInteraction InteractionState.pending
      = .ok ({ replied := true, deferred := false }, 1)
    ∧ (st.replied = true ∨ st.deferred = true →
        handleButtonInteraction st = .ok (st, 0))
    ∧ handleButtonTimes InteractionState.pending n
        = .ok ({ replied := true, deferred := false }, 1) := by
  refine ⟨rfl, ?_, ?_⟩
  · intro h
    unfold handleButtonInteraction
    rcases h with h | h <;> simp [h]
  · obtain ⟨m, rfl⟩ : ∃ m, n = m + 1 := ⟨n - 1, by omega⟩
    clear hn
    have hstep : ∀ k, handleButtonTimes { replied := true, deferred := false } k
        = .ok ({ replied := true, deferred := false }, 0) := by
      intro k
      induction k with
      | zero => rfl
      | succ k ih =>
        unfold handleButtonTimes
        rw [show handleButtonInteraction { replied := true, deferred := false }
            = .ok ({ replied := true, deferred := false }, 0) from rfl]
        simp [ih]
    unfold handleButtonTimes
    rw [show handleButtonInteraction InteractionState.pending
        = .ok ({ replied := true, deferred := false }, 1) from rfl]
    simp [hstep m]

/-- C8 amended witness: three deliveries of a pending interaction still
acknowledge exactly once. -/
theorem handleButton_acknowledges_once_witness :
    handleButtonTimes InteractionState.pending 3
      = .ok ({ replied := true, deferred := false }, 1) :=
  (handleButton_acknowledges_once InteractionState.pending 3 (by norm_num)).2.2

/-! ### Rate limiter lemmas -/

theorem mapGet_mapSet_self (m : RequestsMap) (k : String) (v : List Int) :
    mapGet (mapSet m k v) k = v := by
  induction m with
  | nil => simp [mapSet, mapGet]
  | cons p rest ih =>
    by_cases h : p.1 = k
    · simp [mapSet, mapGet, h]
    · simp [mapSet, mapGet, h, ih]

theorem mapGet_mapSet_ne (m : RequestsMap) (k k' : String) (v : List Int)
    (h : k' ≠ k) : mapGet (mapSet m k v) k' = mapGet m k' := by
  induction m with
  | nil =>
    simp only [mapSet, mapGet]
    rw [if_neg fun hh => h hh.symm]
  | cons p rest ih =>
    by_cases hp : p.1 = k
    · simp only [mapSet, if_pos hp, mapGet]
      rw [if_neg fun hh => h hh.symm, if_neg fun hh : p.1 = k' => h (hp ▸ hh).symm]
    · simp only [mapSet, if_neg hp, mapGet]
      by_cases hk : p.1 = k'
      · rw [if_pos hk, if_pos hk]
      · rw [if_neg hk, if_neg hk]
        exact ih

/-- Every identity's stored record stays no longer than `maxRequests`. -/
def recordsShort (cfg : RateLimiterConfig) (m : RequestsMap) : Prop :=
  ∀ id, (mapGet m id).length ≤ cfg.maxRequests

theorem isAllowed_preserves_short (cfg : RateLimiterConfig) (m : RequestsMap)
    (id : String) (now : Int) (h : recordsShort cfg m) :
    recordsShort cfg (isAllowed cfg m id now).2 := by
  unfold isAllowed
  by_cases hc : cfg.maxRequests ≤
      ((mapGet m id).filter (fun time => now - time < cfg.windowMs)).length
  · simpa [hc] using h
  · simp only [hc, if_false]
    intro id'
    by_cases hid : id' = id
    · subst hid
      rw [mapGet_mapSet_self]
      simp only [List.length_append, List.length_cons, List.length_nil]
      omega
    · rw [mapGet_mapSet_ne _ _ _ _ hid]
      exact h id'

theorem runScript_short (cfg : RateLimiterConfig) (script : List (String × Int)) :
    recordsShort cfg (runScript cfg [] script) := by
  suffices h : ∀ (m : RequestsMap), recordsShort cfg m →
      recordsShort cfg (runScript cfg m script) by
    refine h [] fun id => ?_
    simp [mapGet]
  induction script with
  | nil => intro m hm; exact hm
  | cons call rest ih =>
    intro m hm
    exact ih _ (isAllowed_preserves_short cfg m call.1 call.2 hm)

/-- A burst for one identity: starting from a record of `j` copies of `now`,
`k` further calls at the same instant are all allowed while `j + k` stays
within the maximum, leaving `j + k` copies stored. -/
theorem runCalls_burst (cfg : RateLimiterConfig) (id : String) (now : Int)
    (hw : 0 < cfg.windowMs) :
    ∀ (k j : Nat) (m : RequestsMap), mapGet m id = List.replicate j now →
      j + k ≤ cfg.maxRequests →
      (runCalls cfg m id (List.replicate k now)).1 = List.replicate k true ∧
      mapGet (runCalls cfg m id (List.replicate k now)).2 id = List.replicate (j + k) now := by
  intro k
  induction k with
  | zero =>
    intro j m hm _
    simpa [runCalls] using hm
  | succ k ih =>
    intro j m hm hjk
    have hself : now - now < cfg.windowMs := by omega
    have hfilter : (mapGet m id).filter (fun time => now - time < cfg.windowMs)
        = List.replicate j now := by
      rw [hm, List.filter_replicate, if_pos (by simpa using hself)]
    have hlen : ¬(cfg.maxRequests ≤
        ((mapGet m id).filter (fun time => now - time < cfg.windowMs)).length) := by
      rw [hfilter, List.length_replicate]
      omega
    have hstep : isAllowed cfg m id now
        = (true, mapSet m id (List.replicate (j + 1) now)) := by
      unfold isAllowed
      rw [if_neg hlen, hfilter, ← List.replicate_succ']
    have hm' : mapGet (mapSet m id (List.replicate (j + 1) now)) id
        = List.replicate (j + 1) now := mapGet_mapSet_self _ _ _
    have hrec := ih (j + 1) (mapSet m id (List.replicate (j + 1) now)) hm' (by omega)
    rw [List.replicate_succ]
    unfold runCalls
    rw [hstep]
    refine ⟨?_, ?_⟩
    · simpa [List.replicate_succ] using hrec.1
    · have : j + 1 + k = j + (k + 1) := by omega
      simpa [this] using hrec.2

/-- C2 counterexample: with a 10 ms window and a maximum of one request, a
record holding a timestamp exactly one window old (`now - window = 0`, the
stored timestamp is `0` and `now = 10`) is admitted by the implementation —
which also drops timestamps exactly as old as the window — while the
claim's pruning rule (drop only timestamps strictly older than
`now - window`) would keep the timestamp and deny the call. -/
theorem rateLimiter_boundary_counterexample :
    (isAllowed ⟨10, 1⟩ [("client", [0])] "client" 10).1 = true
    ∧ (claimIsAllowed ⟨10, 1⟩ [("client", [0])] "client" 10).1 = false := by
  decide

/-- C2 amended: on each call the limiter drops the identity's timestamps
whose age is at least the window (`now - t ≥ window`, i.e. timestamps at or
before `now - window`); it denies and leaves the map unchanged when the
pruned count has reached the maximum, and otherwise appends `now` to the
pruned record and allows.  Consequently a burst of exactly `max` requests
at one instant is all allowed, the next request inside the window is
denied, and a request is allowed again as soon as every recorded timestamp
is at least one window old. -/
theorem rateLimiter_sliding_window (cfg : RateLimiterConfig)
    (requests : RequestsMap) (identifier : String) (now later : Int)
    (hmax : 0 < cfg.maxRequests) (hw : 0 < cfg.windowMs) :
    ((isAllowed cfg requests identifier now).1 =
      decide ((((mapGet requests identifier).filter
        (fun time => now - time < cfg.windowMs)).length < cfg.maxRequests)))
    ∧ (cfg.maxRequests ≤ ((mapGet requests identifier).filter
        (fun time => now - time < cfg.windowMs)).length →
        (isAllowed cfg requests identifier now).2 = requests)
    ∧ (((mapGet requests identifier).filter
        (fun time => now - time < cfg.windowMs)).length < cfg.maxRequests →
        mapGet (isAllowed cfg requests identifier now).2 identifier =
          ((mapGet requests identifier).filter
            (fun time => now - time < cfg.windowMs)) ++ [now])
    ∧ ((runCalls cfg [] identifier (List.replicate cfg.maxRequests now)).1 =
        List.replicate cfg.maxRequests true)
    ∧ (later - now < cfg.windowMs →
        (isAllowed cfg (runCalls cfg [] identifier
          (List.replicate cfg.maxRequests now)).2 identifier later).1 = false)
    ∧ ((∀ t ∈ mapGet requests identifier, cfg.windowMs ≤ later - t) →
        (isAllowed cfg requests identifier later).1 = true) := by
  have hburst := runCalls_burst cfg identifier now hw cfg.maxRequests 0 []
    (by simp [mapGet]) (by omega)
  have hchar : ∀ (m : RequestsMap) (t : Int), (isAllowed cfg m identifier t).1 =
      decide ((((mapGet m identifier).filter
        (fun time => t - time < cfg.windowMs)).length < cfg.maxRequests)) := by
    intro m t
    unfold isAllowed
    by_cases h : cfg.maxRequests ≤ ((mapGet m identifier).filter
        (fun time => t - time < cfg.windowMs)).length
    · rw [if_pos h]
      simp only
      rw [eq_comm, decide_eq_false_iff_not]
      omega
    · rw [if_neg h]
      simp only
      rw [eq_comm, decide_eq_true_eq]
      omega
  refine ⟨hchar requests now, ?_, ?_, hburst.1, ?_, ?_⟩
  · intro h
    unfold isAllowed
    rw [if_pos h]
  · intro h
    unfold isAllowed
    rw [if_neg (by omega)]
    exact mapGet_mapSet_self _ _ _
  · intro hlater
    have hrec : mapGet (runCalls cfg [] identifier
        (List.replicate cfg.maxRequests now)).2 identifier =
        List.replicate cfg.maxRequests now := by
      simpa using hburst.2
    rw [hchar, hrec, List.filter_replicate,
      if_pos (show decide (later - now < cfg.windowMs) = true by simpa using hlater)]
    simp only [List.length_replicate, decide_eq_false_iff_not]
    omega
  · intro hall
    have hnil : (mapGet requests identifier).filter
        (fun time => later - time < cfg.windowMs) = [] := by
      rw [List.filter_eq_nil_iff]
      intro t ht
      have := hall t ht
      simp only [decide_eq_true_eq]
      omega
    rw [hchar, hnil]
    simp only [List.length_nil, decide_eq_true_eq]
    omega

/-- C2 amended witness: a burst of exactly two requests under a maximum of
two is fully allowed, with the hypotheses discharged at concrete values. -/
theorem rateLimiter_sliding_window_witness :
    0 < (2 : Nat) ∧ (0 : Int) < 10 ∧
    (runCalls ⟨10, 2⟩ [] "caller" (List.replicate 2 (5 : Int))).1 =
      List.replicate 2 true :=
  ⟨by norm_num, by norm_num,
    (rateLimiter_sliding_window ⟨10, 2⟩ [] "caller" 5 6 (by norm_num)
      (by norm_num)).2.2.2.1⟩

/-- C9: after an admission check in any reachable limiter state, the
checked identity's stored record holds no timestamp older than
`now - window`, and the decision is exactly the comparison of the pruned
record's length against the maximum. -/
theorem rateLimiter_record_pruned (cfg : RateLimiterConfig)
    (script : List (String × Int)) (id : String) (now : Int)
    (hw : 0 ≤ cfg.windowMs) :
    (∀ t ∈ mapGet (isAllowed cfg (runScript cfg [] script) id now).2 id,
        now - cfg.windowMs ≤ t)
    ∧ (isAllowed cfg (runScript cfg [] script) id now).1 =
        decide ((((mapGet (runScript cfg [] script) id).filter
          (fun time => now - time < cfg.windowMs)).length < cfg.maxRequests)) := by
  have hshort := runScript_short cfg script id
  constructor
  · unfold isAllowed
    by_cases h : cfg.maxRequests ≤ ((mapGet (runScript cfg [] script) id).filter
        (fun time => now - time < cfg.windowMs)).length
    · rw [if_pos h]
      intro t ht
      have hle := List.length_filter_le
        (fun time => now - time < cfg.windowMs) (mapGet (runScript cfg [] script) id)
      have heq : ((mapGet (runScript cfg [] script) id).filter
          (fun time => now - time < cfg.windowMs)).length =
          (mapGet (runScript cfg [] script) id).length := by omega
      have hall := List.filter_length_eq_length.mp heq t ht
      simp only [decide_eq_true_eq] at hall
      omega
    · rw [if_neg h]
      simp only
      rw [mapGet_mapSet_self]
      intro t ht
      rcases List.mem_append.mp ht with hmem | hmem
      · have := List.of_mem_filter hmem
        simp only [decide_eq_true_eq] at this
        omega
      · have : t = now := by simpa using hmem
        omega
  · unfold isAllowed
    by_cases h : cfg.maxRequests ≤ ((mapGet (runScript cfg [] script) id).filter
        (fun time => now - time < cfg.windowMs)).length
    · rw [if_pos h]
      simp only
      rw [eq_comm, decide_eq_false_iff_not]
      omega
    · rw [if_neg h]
      simp only
      rw [eq_comm, decide_eq_true_eq]
      omega

/-- C9 witness: the invariant evaluated after a concrete two-call script,
with the window hypothesis discharged at a concrete configuration. -/
theorem rateLimiter_record_pruned_witness :
    (0 : Int) ≤ 10 ∧
    (isAllowed ⟨10, 2⟩ (runScript ⟨10, 2⟩ [] [("a", 0), ("a", 5)]) "a" 12).1 =
      decide ((((mapGet (runScript ⟨10, 2⟩ [] [("a", 0), ("a", 5)]) "a").filter
        (fun time => 12 - time < 10)).length < 2)) :=
  ⟨by norm_num,
    (rateLimiter_record_pruned ⟨10, 2⟩ [("a", 0), ("a", 5)] "a" 12 (by norm_num)).2⟩

/-! ### HMAC round-trip

The first half of the HMAC round-trip property: verifying a signature
produced by signing the same payload under the same secret always
succeeds, because `verifyWebhookSignature` recomputes the identical hex
digest and `timingSafeEqual` accepts equal buffers.  The second half of the
round-trip property — that every single-byte mutation of the payload makes
verification fail — is equivalent to HMAC-SHA256 having no
Hamming-distance-one collisions and is not settled here. -/
theorem verifyWebhookSignature_roundtrip (payload secret : String) :
    verifyWebhookSignature payload (signPayload payload secret) secret = true := by
  unfold verifyWebhookSignature verifySignatureCompare timingSafeEqual
  simp

end DiscordMCP
